import Mathlib

/-!
Shallow embedding of the market-concentration aggregation engine of
feature-engineering-final.py (function compute_passenger_and_hhi and its
helpers), over exact rationals in place of IEEE floats.

A Row models one record of the concatenated dataframe after the parsing
steps of lines 119-143 of the source: AIRLINE, FROM_IATA, TO_CITY, TO_IATA
are optional strings (NaN becomes none), Year and Month are optional
integers (NaT dates give none), and PASSENGER_METRIC is the numeric metric
already attached to the record. ROUTE is the synthesized string
FROM_IATA.fillna('') + "-" + TO_CITY.fillna('') of line 132.
-/

namespace CebuPac

structure Row where
  airline : Option String
  fromIata : Option String
  toCity : Option String
  toIata : Option String
  year : Option Int
  month : Option Int
  metric : ℚ
deriving DecidableEq, Repr

/-- ROUTE column of line 132: FROM_IATA.fillna('') + "-" + TO_CITY.fillna(''). -/
def routeOf (r : Row) : String :=
  r.fromIata.getD "" ++ "-" ++ r.toCity.getD ""

/-- Group key of the groupby of line 146: (AIRLINE, ROUTE, Year, Month). -/
structure GKey where
  airline : String
  route : String
  year : Int
  month : Int
deriving DecidableEq, Repr

/-- Pandas groupby drops a row whenever one of its group keys is NaN; ROUTE
is a synthesized total string, so only AIRLINE, Year and Month can be
missing. -/
def rowKey? (r : Row) : Option GKey :=
  match r.airline, r.year, r.month with
  | some a, some y, some m => some ⟨a, routeOf r, y, m⟩
  | _, _, _ => none

/-- The distinct group keys of the grouped table of line 146. -/
def groupedKeys (rows : List Row) : List GKey :=
  (rows.filterMap rowKey?).dedup

/-- Passenger aggregate of line 147: the sum of PASSENGER_METRIC over the
rows of one group. -/
def Passenger (rows : List Row) (k : GKey) : ℚ :=
  (rows.map (fun r => if rowKey? r = some k then r.metric else 0)).sum

/-- HHI helper of lines 36-45: zero on an empty or zero-sum sequence, else
the sum of squared percentage shares. -/
def calculate_hhi (values : List ℚ) : ℚ :=
  if values.length = 0 then 0
  else if values.sum = 0 then 0
  else ((values.map (fun v => v / values.sum * 100)).map (fun s => s ^ 2)).sum

/-- Python round(x, 2) modelled over the rationals: round to the nearest
hundredth (Mathlib round, half up; the float tie-to-even of Python differs
only at exact half-cent ties, which both sides of every statement below
model identically). -/
def round2 (x : ℚ) : ℚ :=
  ((round (x * 100) : ℤ) : ℚ) / 100

/-- Airline_Load_Period of line 151: the sum of Passenger over all grouped
rows of one airline in one period. -/
def airlineLoadPeriod (rows : List Row) (y m : Int) (a : String) : ℚ :=
  (((groupedKeys rows).filter
      (fun k => k.year = y ∧ k.month = m ∧ k.airline = a)).map (Passenger rows)).sum

/-- Total_Load_Period of line 152: the sum of Passenger over all grouped
rows of one period. -/
def totalLoadPeriod (rows : List Row) (y m : Int) : ℚ :=
  (((groupedKeys rows).filter (fun k => k.year = y ∧ k.month = m)).map (Passenger rows)).sum

/-- OwnShfli of lines 157-160. The Python guard is the truthiness test
(Total_Load_Period and Airline_Load_Period), that is, both nonzero. -/
def OwnShfli (rows : List Row) (y m : Int) (a : String) : ℚ :=
  if totalLoadPeriod rows y m ≠ 0 ∧ airlineLoadPeriod rows y m a ≠ 0 then
    round2 (airlineLoadPeriod rows y m a / totalLoadPeriod rows y m * 100)
  else 0

/-- The distinct airlines of one (Year, Month, ROUTE) group of the
route-level regrouping of line 163. -/
def routeAirlines (rows : List Row) (y m : Int) (route : String) : List String :=
  ((((groupedKeys rows).filter
      (fun k => k.year = y ∧ k.month = m ∧ k.route = route)).map GKey.airline)).dedup

/-- route_hhi of lines 164-166: the HHI of the per-airline Passenger sums of
one route and period. On a key absent from the dictionary the list of
airlines is empty and calculate_hhi returns 0, matching the dictionary
default 0.0 of line 167. -/
def routeHHIval (rows : List Row) (y m : Int) (route : String) : ℚ :=
  calculate_hhi ((routeAirlines rows y m route).map
    (fun a => Passenger rows ⟨a, route, y, m⟩))

/-- One entry of the ends frame of lines 171-173: an endpoint appearance of
a record at an airport. dropna is on AIRPORT only, so AIRLINE, Year and
Month may still be missing here. -/
structure EndRec where
  year : Option Int
  month : Option Int
  airport : String
  airline : Option String
  val : ℚ
deriving DecidableEq, Repr

/-- ends of lines 171-173: origin appearances followed by destination
appearances, keeping only those with a present airport code. -/
def ends (rows : List Row) : List EndRec :=
  rows.filterMap (fun r => r.fromIata.map (fun ap => ⟨r.year, r.month, ap, r.airline, r.metric⟩))
    ++ rows.filterMap (fun r => r.toIata.map (fun ap => ⟨r.year, r.month, ap, r.airline, r.metric⟩))

/-- Flights_Count of line 182: the number of endpoint appearances touching
one airport in one period; the groupby keys are Year, Month, AIRPORT only,
so appearances with a missing airline are counted. -/
def flightsCount (rows : List Row) (y m : Int) (ap : String) : Nat :=
  ((ends rows).filter
    (fun e => e.year = some y ∧ e.month = some m ∧ e.airport = ap)).length

/-- VAL sum of seats_by_airport of line 176 for one (Year, Month, AIRPORT,
AIRLINE) key; appearances with a missing airline are dropped by this
groupby. -/
def airportVal (rows : List Row) (y m : Int) (ap a : String) : ℚ :=
  ((ends rows).map (fun e =>
    if e.year = some y ∧ e.month = some m ∧ e.airport = ap ∧ e.airline = some a
    then e.val else 0)).sum

/-- The distinct airlines with a present airline value touching one airport
in one period (the AIRLINE keys of the groupby of line 178). -/
def airportAirlines (rows : List Row) (y m : Int) (ap : String) : List String :=
  ((ends rows).filterMap (fun e =>
    if e.year = some y ∧ e.month = some m ∧ e.airport = ap then e.airline else none)).dedup

/-- airport_hhi of lines 177-179: HHI of the per-airline VAL sums at one
airport and period; an absent key gives the empty list and hence 0,
matching the dictionary default of line 194. -/
def airportHHIval (rows : List Row) (y m : Int) (ap : String) : ℚ :=
  calculate_hhi ((airportAirlines rows y m ap).map (airportVal rows y m ap))

/-- route_map of line 186: drop_duplicates on ROUTE keeps the first row
carrying each route string, whether or not its endpoint codes are missing. -/
def route_map (rows : List Row) (route : String) : Option (Option String × Option String) :=
  (rows.find? (fun r => routeOf r = route)).map (fun r => (r.fromIata, r.toIata))

/-- The endpoint selector string of lines 188-206. -/
inductive Endpoint where
  | FROM
  | TO
deriving DecidableEq, Repr

/-- _get_airhhi of lines 188-196: 0.0 when the route is absent from
route_map or its endpoint code is missing, else the rounded airport HHI. -/
def getAirHHI (rows : List Row) (y m : Int) (route : String) (e : Endpoint) : ℚ :=
  match route_map rows route with
  | none => 0
  | some (f, t) =>
    match (match e with | .FROM => f | .TO => t) with
    | none => 0
    | some ap => round2 (airportHHIval rows y m ap)

/-- _get_airfli of lines 198-206: 0 when the route is absent from route_map
or its endpoint code is missing, else the flight count at that airport. -/
def getAirFli (rows : List Row) (y m : Int) (route : String) (e : Endpoint) : Nat :=
  match route_map rows route with
  | none => 0
  | some (f, t) =>
    match (match e with | .FROM => f | .TO => t) with
    | none => 0
    | some ap => flightsCount rows y m ap

/-- One row of the final frame of lines 216-218, fields in column order. -/
structure OutputRow where
  airline : String
  route : String
  year : Int
  month : Int
  passenger : ℚ
  ownShfli : ℚ
  routeHHI : ℚ
  airHHIFrom : ℚ
  airHHITo : ℚ
  airFliFrom : Nat
  airFliTo : Nat
deriving DecidableEq, Repr

/-- The full final row for one group key. -/
def mkRow (rows : List Row) (k : GKey) : OutputRow where
  airline := k.airline
  route := k.route
  year := k.year
  month := k.month
  passenger := Passenger rows k
  ownShfli := OwnShfli rows k.year k.month k.airline
  routeHHI := round2 (routeHHIval rows k.year k.month k.route)
  airHHIFrom := getAirHHI rows k.year k.month k.route .FROM
  airHHITo := getAirHHI rows k.year k.month k.route .TO
  airFliFrom := getAirFli rows k.year k.month k.route .FROM
  airFliTo := getAirFli rows k.year k.month k.route .TO

/-- The sort key comparison of line 221: ascending by Year, Month, ROUTE,
Airline, numeric on the period and lexicographic on the strings. -/
def outLE (k k' : GKey) : Bool :=
  decide (k.year < k'.year ∨ (k.year = k'.year ∧
    (k.month < k'.month ∨ (k.month = k'.month ∧
      (k.route < k'.route ∨ (k.route = k'.route ∧ k.airline ≤ k'.airline))))))

/-- final of lines 216-221: one row per distinct group key, sorted. The
group keys are pairwise distinct, so sort stability is immaterial and the
order is the unique ascending one. -/
def finalRows (rows : List Row) : List OutputRow :=
  ((groupedKeys rows).mergeSort outLE).map (mkRow rows)

/-- The column selection list of lines 216-217. -/
def selectedColumns : List String :=
  ["AIRLINE", "ROUTE", "Year", "Month", "Passenger", "OwnShfli", "RouteHHI",
   "AirHHI_From", "AirHHI_To", "AirFli_From", "AirFli_To"]

/-- The rename mapping of line 218. -/
def renameMap (c : String) : String :=
  if c = "AIRLINE" then "Airline"
  else if c = "Year" then "Year"
  else if c = "Month" then "Month"
  else c

/-- The column headers of the final frame, in order. -/
def outputColumns : List String :=
  selectedColumns.map renameMap

/-- Python str.upper over the character list (column names are ASCII). -/
def strUpper (s : String) : String :=
  ⟨s.data.map Char.toUpper⟩

/-- Python str.strip: whitespace removed from both ends. -/
def strStrip (s : String) : String :=
  ⟨((s.data.dropWhile Char.isWhitespace).reverse.dropWhile Char.isWhitespace).reverse⟩

/-- colmap of line 82 over the stripped column names of line 79: the
original name stored under an uppercased key, later duplicates winning. -/
def colmapGet (cols : List String) (ch : String) : Option String :=
  ((cols.map strStrip).reverse).find? (fun c => strUpper c = ch)

/-- pick of lines 83-87: the first alias present in colmap. -/
def pick (cols : List String) (choices : List String) : Option String :=
  choices.findSome? (fun ch => colmapGet cols ch)

/-- The structural column checks of lines 89-104. -/
def checkColumns (cols : List String) : Except String Unit :=
  if (pick cols ["DATE"]).isNone then .error "DATE column not found."
  else if (pick cols ["FROM"]).isNone ∨ (pick cols ["TO"]).isNone then
    .error "FROM and/or TO column not found."
  else if (pick cols ["AIRLINE"]).isNone then .error "AIRLINE column not found."
  else if (pick cols ["LOAD FACTOR", "LOAD_FACTOR", "LOADFACTOR"]).isNone then
    .error "LOAD FACTOR column not found."
  else .ok ()

/-- compute_passenger_and_hhi at the engine level: the column checks run
first and abort the whole computation; only then is the final table built
from the parsed rows. File reading and field parsing are upstream
collaborators per the design scope. -/
def compute_passenger_and_hhi (cols : List String) (rows : List Row) :
    Except String (List String × List OutputRow) := do
  let _ ← checkColumns cols
  pure (outputColumns, finalRows rows)

/-- The distinct airlines present in one period: the AIRLINE keys of the
airline_period groupby of line 151. -/
def periodAirlines (rows : List Row) (y m : Int) : List String :=
  (((groupedKeys rows).filter (fun k => k.year = y ∧ k.month = m)).map GKey.airline).dedup

/-- The RouteEndpointMap as the specification words it: the first observed
pair with neither endpoint code missing, for comparison against route_map. -/
def specRouteEndpointMap (rows : List Row) (route : String) : Option (String × String) :=
  (rows.find? (fun r => routeOf r = route ∧ r.fromIata.isSome ∧ r.toIata.isSome)).map
    (fun r => (r.fromIata.getD "", r.toIata.getD ""))

/-- The lexicographic tuple behind the output ordering. -/
def keyTup (k : GKey) : Int ×ₗ Int ×ₗ String ×ₗ String :=
  toLex (k.year, toLex (k.month, toLex (k.route, k.airline)))

/-- Scenario rows of the specification: airline A1 with metrics 60 and 40
and airline A2 with metric 50, all on route MNL-CEB in 2024-07. -/
def scenarioRows : List Row :=
  [⟨some "A1", some "MNL", some "CEB", some "CEB", some 2024, some 7, 60⟩,
   ⟨some "A1", some "MNL", some "CEB", some "CEB", some 2024, some 7, 40⟩,
   ⟨some "A2", some "MNL", some "CEB", some "CEB", some 2024, some 7, 50⟩]

/-- A single record with a negative metric. -/
def negRow : Row :=
  ⟨some "A", some "MNL", some "CEB", none, some 2024, some 7, -5⟩

/-- Two records of one route string, the first with a missing destination
code and the second with a present one. -/
def ambiguousRows : List Row :=
  [⟨some "A1", some "MNL", some "CEBU", none, some 2024, some 7, 60⟩,
   ⟨some "A1", some "MNL", some "CEBU", some "CEB", some 2024, some 7, 40⟩]

/-- A record with a missing airline but a present origin airport code. -/
def noAirlineRow : Row :=
  ⟨none, some "MNL", some "CEB", none, some 2024, some 7, 5⟩

end CebuPac

namespace CebuPac

/-! Helper lemmas shared by the claim theorems. -/

theorem round2_zero : round2 0 = 0 := by
  simp [round2]

theorem round2_concrete (x : ℚ) (n : ℤ) (h1 : (n : ℚ) ≤ x * 100 + 1 / 2)
    (h2 : x * 100 + 1 / 2 < n + 1) : round2 x = (n : ℚ) / 100 := by
  rw [round2, round_eq, Int.floor_eq_iff.mpr ⟨h1, h2⟩]

theorem round2_nonneg (x : ℚ) (h : 0 ≤ x) : 0 ≤ round2 x := by
  have h0 : (0 : ℤ) ≤ round (x * 100) := by
    rw [round_eq, Int.le_floor]
    push_cast
    nlinarith
  rw [round2]
  exact div_nonneg (by exact_mod_cast h0) (by norm_num)

theorem round2_le_100 (x : ℚ) (h : x ≤ 100) : round2 x ≤ 100 := by
  have h0 : round (x * 100) ≤ (10000 : ℤ) := by
    rw [round_eq, Int.floor_le_iff]
    push_cast
    nlinarith
  rw [round2]
  calc ((round (x * 100) : ℤ) : ℚ) / 100 ≤ ((10000 : ℤ) : ℚ) / 100 := by
        apply div_le_div_of_nonneg_right ?_ (by norm_num)
        exact_mod_cast h0
    _ = 100 := by norm_num

theorem abs_round2_sub (x : ℚ) : |round2 x - x| ≤ 1 / 200 := by
  have h := abs_sub_round (x * 100)
  rw [round2]
  have : ((round (x * 100) : ℤ) : ℚ) / 100 - x = -((x * 100 - round (x * 100)) / 100) := by
    ring
  rw [this, abs_neg, abs_div]
  rw [show |(100 : ℚ)| = 100 by norm_num]
  linarith [h]

theorem outLE_iff (k k' : GKey) : outLE k k' = true ↔ keyTup k ≤ keyTup k' := by
  simp [outLE, keyTup, Prod.Lex.le_iff]

theorem outLE_trans (a b c : GKey) (h1 : outLE a b) (h2 : outLE b c) : outLE a c := by
  rw [outLE_iff] at *
  exact le_trans h1 h2

theorem outLE_total (a b : GKey) : outLE a b || outLE b a := by
  rcases le_total (keyTup a) (keyTup b) with h | h
  · simp [(outLE_iff a b).mpr h]
  · simp [(outLE_iff b a).mpr h]

theorem sum_map_add {α : Type} (l : List α) (u v : α → ℚ) :
    (l.map (fun x => u x + v x)).sum = (l.map u).sum + (l.map v).sum := by
  induction l with
  | nil => simp
  | cons x xs ih => simp [ih]; ring

theorem sum_map_sub {α : Type} (l : List α) (u v : α → ℚ) :
    (l.map (fun x => u x - v x)).sum = (l.map u).sum - (l.map v).sum := by
  induction l with
  | nil => simp
  | cons x xs ih => simp [ih]; ring

theorem abs_sum_le (l : List ℚ) : |l.sum| ≤ (l.map (fun x => |x|)).sum := by
  induction l with
  | nil => simp
  | cons x xs ih =>
    simp only [List.sum_cons, List.map_cons]
    calc |x + xs.sum| ≤ |x| + |xs.sum| := abs_add _ _
      _ ≤ |x| + (xs.map (fun x => |x|)).sum := by linarith

theorem sum_le_length_mul (l : List ℚ) (b : ℚ) (h : ∀ x ∈ l, x ≤ b) :
    l.sum ≤ l.length * b := by
  induction l with
  | nil => simp
  | cons x xs ih =>
    simp only [List.sum_cons, List.length_cons]
    have h1 : x ≤ b := h x (List.mem_cons_self x xs)
    have h2 : xs.sum ≤ xs.length * b := ih (fun y hy => h y (List.mem_cons_of_mem x hy))
    push_cast
    nlinarith [h1, h2]

theorem sum_map_ite {κ : Type} [DecidableEq κ] (C : List κ) (hC : C.Nodup) (c0 : κ) (q : ℚ) :
    (C.map (fun c => if c0 = c then q else 0)).sum = if c0 ∈ C then q else 0 := by
  induction C with
  | nil => simp
  | cons c cs ih =>
    rcases List.nodup_cons.mp hC with ⟨hni, hcs⟩
    by_cases h : c0 = c
    · subst h
      simp [ih hcs, hni]
    · simp only [List.map_cons, List.sum_cons, if_neg h, zero_add, ih hcs, List.mem_cons]
      by_cases hm : c0 ∈ cs
      · simp [hm, h]
      · simp [hm, h]

/-- Splitting a list sum along the fibers of a key function: summing the
per-group sums over the distinct keys gives the total sum. -/
theorem sum_groups {α κ : Type} [DecidableEq κ] (g : α → κ) (f : α → ℚ) (l : List α) :
    (((l.map g).dedup).map (fun c => ((l.filter (fun x => g x = c)).map f).sum)).sum
      = (l.map f).sum := by
  induction l with
  | nil => simp
  | cons x xs ih =>
    have key : ∀ C : List κ,
        (C.map (fun c => (((x :: xs).filter (fun y => g y = c)).map f).sum)).sum
          = (C.map (fun c => if g x = c then f x else 0)).sum
            + (C.map (fun c => ((xs.filter (fun y => g y = c)).map f).sum)).sum := by
      intro C
      rw [← sum_map_add]
      congr 1
      apply List.map_congr_left
      intro c _
      by_cases h : g x = c
      · simp [List.filter_cons, h]
      · simp [List.filter_cons, h]
    rw [key, sum_map_ite _ (List.nodup_dedup _) _ _,
      if_pos (List.mem_dedup.mpr (by simp : g x ∈ (x :: xs).map g))]
    by_cases hmem : g x ∈ xs.map g
    · have hd : ((x :: xs).map g).dedup = (xs.map g).dedup := by
        rw [List.map_cons, List.dedup_cons_of_mem hmem]
      rw [hd, ih, List.map_cons, List.sum_cons]
    · have hd : ((x :: xs).map g).dedup = g x :: (xs.map g).dedup := by
        rw [List.map_cons, List.dedup_cons_of_not_mem hmem]
      have hnil : xs.filter (fun y => g y = g x) = [] := by
        rw [List.filter_eq_nil_iff]
        intro a ha
        simp only [decide_eq_true_eq]
        intro hga
        exact hmem (hga ▸ List.mem_map_of_mem g ha)
      rw [hd, List.map_cons, List.sum_cons, hnil]
      simp [ih]

/-- C1: calculate_hhi returns 0 on an empty or zero-sum sequence and the sum
of squared percentage shares otherwise; HHI of a singleton 100 is 10000, of
two equal values 50 and 50 is 5000, of the empty list is 0, and of two
zeros is 0. -/
theorem hhi_spec (values : List ℚ) (hnn : ∀ v ∈ values, 0 ≤ v) :
    ((values = [] ∨ values.sum = 0) → calculate_hhi values = 0) ∧
    (values.sum ≠ 0 →
      calculate_hhi values = (values.map (fun v => (v / values.sum * 100) ^ 2)).sum) ∧
    calculate_hhi [100] = 10000 ∧ calculate_hhi [50, 50] = 5000 ∧
    calculate_hhi [] = 0 ∧ calculate_hhi [0, 0] = 0 := by
  refine ⟨?_, ?_, by norm_num [calculate_hhi], by norm_num [calculate_hhi],
    by norm_num [calculate_hhi], by norm_num [calculate_hhi]⟩
  · rintro (rfl | h)
    · simp [calculate_hhi]
    · simp [calculate_hhi, h]
  · intro h
    have hne : values.length ≠ 0 := by
      intro h0
      exact h (by simp [List.length_eq_zero.mp h0])
    simp only [calculate_hhi, hne, if_false, h, List.map_map]
    rfl

/-- Witness for C1 at the concrete list [50, 50]. -/
theorem hhi_spec_witness :
    (∀ v ∈ ([50, 50] : List ℚ), 0 ≤ v) ∧ calculate_hhi [50, 50] = 5000 :=
  ⟨by norm_num, (hhi_spec [50, 50] (by norm_num)).2.2.2.1⟩

end CebuPac

namespace CebuPac

/-- The grouped keys of one route and period are exactly its distinct
airlines paired with that route and period. -/
theorem route_filter_eq (rows : List Row) (y m : Int) (route : String) :
    ((groupedKeys rows).filter (fun k => k.year = y ∧ k.month = m ∧ k.route = route))
      = (routeAirlines rows y m route).map (fun a => ⟨a, route, y, m⟩) := by
  have hnd : ((groupedKeys rows).filter
      (fun k => k.year = y ∧ k.month = m ∧ k.route = route)).Nodup :=
    (List.nodup_dedup _).filter _
  have hmem : ∀ k ∈ (groupedKeys rows).filter
      (fun k => k.year = y ∧ k.month = m ∧ k.route = route),
      k.year = y ∧ k.month = m ∧ k.route = route := by
    intro k hk
    have := List.of_mem_filter hk
    simpa using this
  have hinj : (((groupedKeys rows).filter
      (fun k => k.year = y ∧ k.month = m ∧ k.route = route)).map GKey.airline).Nodup := by
    apply List.Nodup.map_on ?_ hnd
    intro k1 h1 k2 h2 hq
    obtain ⟨hy1, hm1, hr1⟩ := hmem k1 h1
    obtain ⟨hy2, hm2, hr2⟩ := hmem k2 h2
    obtain ⟨a1, r1, y1, m1⟩ := k1
    obtain ⟨a2, r2, y2, m2⟩ := k2
    simp_all
  rw [routeAirlines, List.Nodup.dedup hinj, List.map_map]
  symm
  conv_rhs => rw [← List.map_id ((groupedKeys rows).filter
    (fun k => k.year = y ∧ k.month = m ∧ k.route = route))]
  apply List.map_congr_left
  intro k hk
  obtain ⟨hy, hm, hr⟩ := hmem k hk
  obtain ⟨a1, r1, y1, m1⟩ := k
  simp_all [Function.comp]

/-- C2: in every (route, year, month) group of the output, the Passenger
column summed over the airlines of the group is the total that
calculate_hhi uses as denominator (the sum of the per-airline value list),
the RouteHHI field is the rounded HHI of that list, and the scenario of the
specification (A1 with 60 and 40, A2 with 50) yields 5555.56. -/
theorem routeHHI_group_sum (rows : List Row) (k : GKey) (hk : k ∈ groupedKeys rows) :
    (((groupedKeys rows).filter
        (fun k' => k'.year = k.year ∧ k'.month = k.month ∧ k'.route = k.route)).map
          (Passenger rows)).sum
      = ((routeAirlines rows k.year k.month k.route).map
          (fun a => Passenger rows ⟨a, k.route, k.year, k.month⟩)).sum ∧
    (mkRow rows k).routeHHI = round2 (routeHHIval rows k.year k.month k.route) ∧
    round2 (routeHHIval scenarioRows 2024 7 "MNL-CEB") = 5555.56 := by
  refine ⟨?_, rfl, ?_⟩
  · rw [route_filter_eq rows k.year k.month k.route, List.map_map]
    rfl
  · have h : routeHHIval scenarioRows 2024 7 "MNL-CEB" = 50000 / 9 := by
      simp [routeHHIval, routeAirlines, groupedKeys, scenarioRows, rowKey?, routeOf,
        Passenger, calculate_hhi]
      norm_num
    rw [h, show (5555.56 : ℚ) = ((555556 : ℤ) : ℚ) / 100 by norm_num]
    exact round2_concrete _ _ (by norm_num) (by norm_num)

/-- Witness for C2 at the scenario input and its A1 group key. -/
theorem routeHHI_group_sum_witness :
    (⟨"A1", "MNL-CEB", 2024, 7⟩ : GKey) ∈ groupedKeys scenarioRows ∧
    round2 (routeHHIval scenarioRows 2024 7 "MNL-CEB") = 5555.56 :=
  ⟨by decide, (routeHHI_group_sum scenarioRows ⟨"A1", "MNL-CEB", 2024, 7⟩ (by decide)).2.2⟩

end CebuPac

namespace CebuPac

/-- C9 counterexample: the final frame's second column header is the
unrenamed "ROUTE", not "Route" — the rename of line 218 maps only AIRLINE,
Year and Month. -/
theorem output_columns_counterexample :
    outputColumns ≠ ["Airline", "Route", "Year", "Month", "Passenger", "OwnShfli",
      "RouteHHI", "AirHHI_From", "AirHHI_To", "AirFli_From", "AirFli_To"] ∧
    outputColumns.get? 1 = some "ROUTE" := by
  constructor
  · decide
  · decide

/-- C9 amended: the output table has exactly the columns Airline, ROUTE,
Year, Month, Passenger, OwnShfli, RouteHHI, AirHHI_From, AirHHI_To,
AirFli_From, AirFli_To in that fixed order, and its rows are sorted
ascending by (Year, Month, Route, Airline), numerically on Year and Month
and lexicographically on the route and airline strings. -/
theorem output_columns_and_order (rows : List Row) :
    outputColumns = ["Airline", "ROUTE", "Year", "Month", "Passenger", "OwnShfli",
      "RouteHHI", "AirHHI_From", "AirHHI_To", "AirFli_From", "AirFli_To"] ∧
    (finalRows rows).Pairwise (fun o o' =>
      o.year < o'.year ∨ (o.year = o'.year ∧
        (o.month < o'.month ∨ (o.month = o'.month ∧
          (o.route < o'.route ∨ (o.route = o'.route ∧ o.airline ≤ o'.airline)))))) := by
  refine ⟨by decide, ?_⟩
  have hs := List.sorted_mergeSort outLE_trans outLE_total (groupedKeys rows)
  apply hs.map
  intro a b h
  have h' := of_decide_eq_true h
  exact h'

end CebuPac

namespace CebuPac

/-- C5: a record with a missing airline yields no group key, and dropping
all such records changes neither the set of groups nor any Passenger
aggregate; the grouping itself is total, so the run never aborts. A missing
route value cannot occur at all, since ROUTE is a synthesized total string. -/
theorem missing_airline_dropped :
    (∀ r : Row, r.airline = none → rowKey? r = none) ∧
    (∀ rows : List Row,
      groupedKeys (rows.filter (fun r => r.airline.isSome)) = groupedKeys rows) ∧
    (∀ rows : List Row, ∀ k : GKey,
      Passenger (rows.filter (fun r => r.airline.isSome)) k = Passenger rows k) := by
  have hnone : ∀ r : Row, r.airline = none → rowKey? r = none := by
    intro r h
    simp [rowKey?, h]
  refine ⟨hnone, ?_, ?_⟩
  · intro rows
    unfold groupedKeys
    congr 1
    induction rows with
    | nil => rfl
    | cons r rest ih =>
      cases hair : r.airline with
      | none =>
        simp [List.filter_cons, hair, List.filterMap_cons, hnone r hair, ih]
      | some a =>
        cases hk : rowKey? r <;>
          simp [List.filter_cons, hair, List.filterMap_cons, hk, ih]
  · intro rows k
    unfold Passenger
    induction rows with
    | nil => rfl
    | cons r rest ih =>
      cases hair : r.airline with
      | none =>
        simp [List.filter_cons, hair, hnone r hair, ih]
      | some a =>
        simp [List.filter_cons, hair, ih]

/-- Witness for C5 at a record with a missing airline. -/
theorem missing_airline_dropped_witness :
    noAirlineRow.airline = none ∧ rowKey? noAirlineRow = none :=
  ⟨rfl, missing_airline_dropped.1 noAirlineRow rfl⟩

/-- C8 counterexample: on ambiguousRows the route string MNL-CEBU first
appears with a missing destination code and later with the resolvable pair
(MNL, CEB); route_map binds the first-row pair (some MNL, none), not the
first observed non-missing pair. -/
theorem route_map_counterexample :
    specRouteEndpointMap ambiguousRows "MNL-CEBU" = some ("MNL", "CEB") ∧
    route_map ambiguousRows "MNL-CEBU" = some (some "MNL", none) ∧
    route_map ambiguousRows "MNL-CEBU" ≠ some (some "MNL", some "CEB") := by
  refine ⟨by decide, by decide, by decide⟩

/-- C8 amended: route_map binds each route string to the (from, to) pair of
its first occurrence in input order, whether or not that pair is missing;
for a route with several distinct endpoint pairs the resolution is this
deterministic first-seen pair. -/
theorem route_map_first_seen (rows : List Row) (route : String) (r : Row)
    (hr : r ∈ rows) (hroute : routeOf r = route) :
    ∃ pre r0 post, rows = pre ++ r0 :: post ∧
      (∀ x ∈ pre, routeOf x ≠ route) ∧ routeOf r0 = route ∧
      route_map rows route = some (r0.fromIata, r0.toIata) := by
  induction rows with
  | nil => cases hr
  | cons h t ih =>
    by_cases hh : routeOf h = route
    · refine ⟨[], h, t, rfl, by simp, hh, ?_⟩
      unfold route_map
      rw [List.find?_cons_of_pos _ (by simpa using hh)]
      rfl
    · have hrt : r ∈ t := by
        rcases List.mem_cons.mp hr with heq | hm
        · exact absurd (heq ▸ hroute) hh
        · exact hm
      obtain ⟨pre, r0, post, hsplit, hpre, hr0, hmap⟩ := ih hrt
      refine ⟨h :: pre, r0, post, by rw [hsplit]; rfl, ?_, hr0, ?_⟩
      · intro x hx
        rcases List.mem_cons.mp hx with heq | hm
        · exact heq ▸ hh
        · exact hpre x hm
      · unfold route_map at hmap ⊢
        rw [List.find?_cons_of_neg _ (by simpa using hh)]
        exact hmap

/-- Witness for C8 at the first row of ambiguousRows. -/
theorem route_map_first_seen_witness :
    ∃ pre r0 post, ambiguousRows = pre ++ r0 :: post ∧
      (∀ x ∈ pre, routeOf x ≠ "MNL-CEBU") ∧ routeOf r0 = "MNL-CEBU" ∧
      route_map ambiguousRows "MNL-CEBU" = some (r0.fromIata, r0.toIata) :=
  route_map_first_seen ambiguousRows "MNL-CEBU"
    ⟨some "A1", some "MNL", some "CEBU", none, some 2024, some 7, 60⟩
    (by rw [ambiguousRows]; exact List.mem_cons_self _ _) rfl

end CebuPac

namespace CebuPac

/-- Building ends after dropping rows with a missing airline is the same as
keeping only the appearances with a present airline. -/
theorem filterMap_end_filter (get : Row → Option String) (rows : List Row) :
    (rows.filter (fun r => r.airline.isSome)).filterMap
        (fun r => (get r).map (fun ap => EndRec.mk r.year r.month ap r.airline r.metric))
      = (rows.filterMap
          (fun r => (get r).map (fun ap => EndRec.mk r.year r.month ap r.airline r.metric))).filter
          (fun e => e.airline.isSome) := by
  induction rows with
  | nil => rfl
  | cons r rest ih =>
    cases hair : r.airline <;> cases hg : get r <;>
      simp [List.filter_cons, List.filterMap_cons, hair, hg, ih]

theorem ends_filter_airline (rows : List Row) :
    ends (rows.filter (fun r => r.airline.isSome))
      = (ends rows).filter (fun e => e.airline.isSome) := by
  unfold ends
  rw [List.filter_append, filterMap_end_filter, filterMap_end_filter]

theorem filterMap_airline_eq (l : List EndRec) (y m : Int) (ap : String) :
    (l.filter (fun e => e.airline.isSome)).filterMap
        (fun e => if e.year = some y ∧ e.month = some m ∧ e.airport = ap then e.airline else none)
      = l.filterMap
          (fun e => if e.year = some y ∧ e.month = some m ∧ e.airport = ap
            then e.airline else none) := by
  induction l with
  | nil => rfl
  | cons e rest ih =>
    cases hair : e.airline with
    | none =>
      have hz : (if e.year = some y ∧ e.month = some m ∧ e.airport = ap
          then e.airline else none) = none := by
        split <;> simp [hair]
      simp [List.filter_cons, List.filterMap_cons, hair, hz, ih]
    | some a =>
      by_cases hc : e.year = some y ∧ e.month = some m ∧ e.airport = ap
      · simp [List.filter_cons, List.filterMap_cons, hair, hc, ih]
      · simp [List.filter_cons, List.filterMap_cons, hair, hc, ih]

theorem map_val_filter_airline (l : List EndRec) (y m : Int) (ap a : String) :
    ((l.filter (fun e => e.airline.isSome)).map (fun e =>
        if e.year = some y ∧ e.month = some m ∧ e.airport = ap ∧ e.airline = some a
        then e.val else 0)).sum
      = (l.map (fun e =>
          if e.year = some y ∧ e.month = some m ∧ e.airport = ap ∧ e.airline = some a
          then e.val else 0)).sum := by
  induction l with
  | nil => rfl
  | cons e rest ih =>
    cases hair : e.airline with
    | none =>
      have hz : (if e.year = some y ∧ e.month = some m ∧ e.airport = ap ∧ e.airline = some a
          then e.val else 0) = 0 := by
        rw [if_neg]
        rintro ⟨-, -, -, hcontr⟩
        rw [hair] at hcontr
        cases hcontr
      simp [List.filter_cons, hair, hz, ih]
    | some b => simp [List.filter_cons, hair, ih]

theorem airportVal_filter (rows : List Row) (y m : Int) (ap a : String) :
    airportVal (rows.filter (fun r => r.airline.isSome)) y m ap a
      = airportVal rows y m ap a := by
  unfold airportVal
  rw [ends_filter_airline, map_val_filter_airline]

theorem airportAirlines_filter (rows : List Row) (y m : Int) (ap : String) :
    airportAirlines (rows.filter (fun r => r.airline.isSome)) y m ap
      = airportAirlines rows y m ap := by
  unfold airportAirlines
  rw [ends_filter_airline, filterMap_airline_eq]

/-- C10: the per-airport flight count includes endpoint appearances of
records with a missing airline (records which the route-period grouping
excludes), while the airport HHI is unchanged by dropping those records;
hence on some inputs the flight count strictly exceeds the count of
appearances attributable to any airline of the HHI. -/
theorem flight_count_includes_missing_airline :
    (∀ r : Row, r.airline = none → rowKey? r = none) ∧
    (∀ rows : List Row, ∀ y m : Int, ∀ ap : String,
      airportHHIval (rows.filter (fun r => r.airline.isSome)) y m ap
        = airportHHIval rows y m ap) ∧
    (∃ rows : List Row, ∃ y m : Int, ∃ ap : String,
      flightsCount (rows.filter (fun r => r.airline.isSome)) y m ap
        < flightsCount rows y m ap) := by
  refine ⟨?_, ?_, ⟨[noAirlineRow], 2024, 7, "MNL", by decide⟩⟩
  · intro r h
    simp [rowKey?, h]
  · intro rows y m ap
    unfold airportHHIval
    rw [airportAirlines_filter]
    congr 1
    apply List.map_congr_left
    intro a _
    exact airportVal_filter rows y m ap a

/-- C7: when a route has no resolvable airport code for an endpoint (the
route is absent from route_map, or its stored code for that endpoint is
missing), the corresponding AirHHI field is 0 and the AirFli field is 0;
both lookups are total functions, so the row stays fully populated. -/
theorem unresolved_endpoint_defaults (rows : List Row) (y m : Int) (route : String)
    (e : Endpoint)
    (h : route_map rows route = none ∨
      ∃ p : Option String × Option String, route_map rows route = some p ∧
        (match e with | .FROM => p.1 | .TO => p.2) = none) :
    getAirHHI rows y m route e = 0 ∧ getAirFli rows y m route e = 0 := by
  rcases h with h | ⟨⟨f, t⟩, hp, hnone⟩
  · simp [getAirHHI, getAirFli, h]
  · cases e <;> simp_all [getAirHHI, getAirFli]

/-- Witness for C7 at a route whose destination code is never resolvable
from its first-seen row. -/
theorem unresolved_endpoint_defaults_witness :
    getAirHHI ambiguousRows 2024 7 "MNL-CEBU" .TO = 0 ∧
    getAirFli ambiguousRows 2024 7 "MNL-CEBU" .TO = 0 :=
  unresolved_endpoint_defaults ambiguousRows 2024 7 "MNL-CEBU" .TO
    (Or.inr ⟨(some "MNL", none), by decide, rfl⟩)

end CebuPac

namespace CebuPac

theorem checkColumns_ok_iff (cols : List String) :
    checkColumns cols = .ok () ↔
      ¬(pick cols ["DATE"]).isNone ∧
      ¬((pick cols ["FROM"]).isNone ∨ (pick cols ["TO"]).isNone) ∧
      ¬(pick cols ["AIRLINE"]).isNone ∧
      ¬(pick cols ["LOAD FACTOR", "LOAD_FACTOR", "LOADFACTOR"]).isNone := by
  unfold checkColumns
  split_ifs with h1 h2 h3 h4 <;> simp_all

/-- C6: when the date, route (FROM or TO) or airline column is structurally
absent from the dataset the engine aborts with an error and produces no
output table, and whether it aborts depends only on the columns, never on
the row values. -/
theorem structural_column_error :
    (∀ cols : List String, ∀ rows : List Row,
      (pick cols ["DATE"] = none ∨ pick cols ["FROM"] = none ∨ pick cols ["TO"] = none ∨
        pick cols ["AIRLINE"] = none) →
      ∃ msg, compute_passenger_and_hhi cols rows = .error msg) ∧
    (∀ cols : List String, ∀ rows rows' : List Row,
      (compute_passenger_and_hhi cols rows).isOk
        = (compute_passenger_and_hhi cols rows').isOk) := by
  constructor
  · intro cols rows h
    rcases hres : checkColumns cols with msg | u
    · exact ⟨msg, by simp [compute_passenger_and_hhi, hres, Bind.bind, Except.bind]⟩
    · obtain ⟨h1, h2, h3, h4⟩ := (checkColumns_ok_iff cols).mp (by cases u; exact hres)
      exfalso
      rcases h with h | h | h | h
      · exact h1 (by simp [h])
      · exact h2 (Or.inl (by simp [h]))
      · exact h2 (Or.inr (by simp [h]))
      · exact h3 (by simp [h])
  · intro cols rows rows'
    rcases hres : checkColumns cols with msg | u <;>
      simp [compute_passenger_and_hhi, hres, Bind.bind, Except.bind, Except.isOk,
        Except.toBool, Pure.pure, Except.pure]

/-- Witness for C6 on a dataset missing the AIRLINE column. -/
theorem structural_column_error_witness :
    pick ["DATE", "FROM", "TO", "LOAD FACTOR"] ["AIRLINE"] = none ∧
    ∃ msg, compute_passenger_and_hhi ["DATE", "FROM", "TO", "LOAD FACTOR"] [] = .error msg :=
  ⟨by decide, structural_column_error.1 _ [] (Or.inr (Or.inr (Or.inr (by decide))))⟩

end CebuPac

namespace CebuPac

/-- C3 counterexample: on a single record with metric -5 both period totals
are -5, which is not strictly positive, yet the output row's OwnShfli is
100 rather than 0.00 — the Python guard is a nonzero test, so negative
totals fall into the computing branch. -/
theorem ownshfli_counterexample :
    airlineLoadPeriod [negRow] 2024 7 "A" = -5 ∧
    totalLoadPeriod [negRow] 2024 7 = -5 ∧
    (finalRows [negRow]).map OutputRow.ownShfli = [100] := by
  have ha : airlineLoadPeriod [negRow] 2024 7 "A" = -5 := by
    simp [airlineLoadPeriod, groupedKeys, negRow, rowKey?, routeOf, Passenger]
  have ht : totalLoadPeriod [negRow] 2024 7 = -5 := by
    simp [totalLoadPeriod, groupedKeys, negRow, rowKey?, routeOf, Passenger]
  refine ⟨ha, ht, ?_⟩
  have hkeys : groupedKeys [negRow] = [⟨"A", "MNL-CEB", 2024, 7⟩] := by decide
  have hms : (groupedKeys [negRow]).mergeSort outLE = [⟨"A", "MNL-CEB", 2024, 7⟩] := by
    rw [hkeys, List.mergeSort]
  rw [finalRows, hms]
  simp only [List.map_cons, List.map_nil, mkRow]
  have hovn : OwnShfli [negRow] 2024 7 "A" = 100 := by
    rw [OwnShfli, if_pos ⟨by rw [ht]; norm_num, by rw [ha]; norm_num⟩, ha, ht]
    norm_num [round2]
  rw [hovn]

/-- C3 amended: for every output row, OwnShfli equals
round(airline_total / grand_total * 100, 2) whenever both period totals are
nonzero (so in particular whenever both are strictly positive), and equals
0.00 when either total is zero; the computation is total, so a zero total
never raises a division error. -/
theorem ownshfli_formula (rows : List Row) (o : OutputRow) (ho : o ∈ finalRows rows) :
    (airlineLoadPeriod rows o.year o.month o.airline ≠ 0 ∧
        totalLoadPeriod rows o.year o.month ≠ 0 →
      o.ownShfli = round2 (airlineLoadPeriod rows o.year o.month o.airline
        / totalLoadPeriod rows o.year o.month * 100)) ∧
    (airlineLoadPeriod rows o.year o.month o.airline = 0 ∨
        totalLoadPeriod rows o.year o.month = 0 →
      o.ownShfli = 0) := by
  obtain ⟨k, hkmem, rfl⟩ := List.mem_map.mp ho
  simp only [mkRow]
  constructor
  · rintro ⟨hA, hT⟩
    rw [OwnShfli, if_pos ⟨hT, hA⟩]
  · rintro (hA | hT)
    · rw [OwnShfli, if_neg]
      rintro ⟨h1, h2⟩
      exact h2 hA
    · rw [OwnShfli, if_neg]
      rintro ⟨h1, h2⟩
      exact h1 hT

/-- Witness for C3 at the single-record negative-metric input. -/
theorem ownshfli_formula_witness :
    (mkRow [negRow] ⟨"A", "MNL-CEB", 2024, 7⟩).ownShfli
      = round2 (airlineLoadPeriod [negRow] 2024 7 "A"
          / totalLoadPeriod [negRow] 2024 7 * 100) := by
  have hkeys : groupedKeys [negRow] = [⟨"A", "MNL-CEB", 2024, 7⟩] := by decide
  have hmem : mkRow [negRow] ⟨"A", "MNL-CEB", 2024, 7⟩ ∈ finalRows [negRow] := by
    rw [finalRows, hkeys, List.mergeSort]
    exact List.mem_singleton.mpr rfl
  have ha : airlineLoadPeriod [negRow] 2024 7 "A" ≠ 0 := by
    simp [airlineLoadPeriod, groupedKeys, negRow, rowKey?, routeOf, Passenger]
  have ht : totalLoadPeriod [negRow] 2024 7 ≠ 0 := by
    simp [totalLoadPeriod, groupedKeys, negRow, rowKey?, routeOf, Passenger]
  exact (ownshfli_formula [negRow] _ hmem).1 ⟨ha, ht⟩

end CebuPac

namespace CebuPac

theorem Passenger_nonneg (rows : List Row) (h : ∀ r ∈ rows, 0 ≤ r.metric) (k : GKey) :
    0 ≤ Passenger rows k := by
  apply List.sum_nonneg
  intro x hx
  obtain ⟨r, hr, rfl⟩ := List.mem_map.mp hx
  split
  · exact h r hr
  · exact le_refl 0

theorem airlineLoad_eq_filter (rows : List Row) (y m : Int) (a : String) :
    airlineLoadPeriod rows y m a
      = ((((groupedKeys rows).filter (fun k => k.year = y ∧ k.month = m)).filter
          (fun k => k.airline = a)).map (Passenger rows)).sum := by
  unfold airlineLoadPeriod
  rw [List.filter_filter]
  congr 1
  congr 1
  apply List.filter_congr
  intro k _
  simp only [Bool.decide_and]
  cases hy : decide (k.year = y) <;> cases hm : decide (k.month = m) <;>
    cases ha : decide (k.airline = a) <;> simp

theorem airlineLoad_nonneg (rows : List Row) (h : ∀ r ∈ rows, 0 ≤ r.metric)
    (y m : Int) (a : String) : 0 ≤ airlineLoadPeriod rows y m a := by
  apply List.sum_nonneg
  intro x hx
  obtain ⟨k, _, rfl⟩ := List.mem_map.mp hx
  exact Passenger_nonneg rows h k

theorem airlineLoad_le_total (rows : List Row) (h : ∀ r ∈ rows, 0 ≤ r.metric)
    (y m : Int) (a : String) :
    airlineLoadPeriod rows y m a ≤ totalLoadPeriod rows y m := by
  rw [airlineLoad_eq_filter, totalLoadPeriod]
  apply List.Sublist.sum_le_sum
  · exact (List.filter_sublist _).map _
  · intro x hx
    obtain ⟨k, _, rfl⟩ := List.mem_map.mp hx
    exact Passenger_nonneg rows h k

theorem ownShfli_bounds (rows : List Row) (h : ∀ r ∈ rows, 0 ≤ r.metric)
    (y m : Int) (a : String) : 0 ≤ OwnShfli rows y m a ∧ OwnShfli rows y m a ≤ 100 := by
  unfold OwnShfli
  split
  case isTrue hc =>
    obtain ⟨hT, hA⟩ := hc
    have hA0 : 0 < airlineLoadPeriod rows y m a :=
      lt_of_le_of_ne (airlineLoad_nonneg rows h y m a) (Ne.symm hA)
    have hT0 : 0 < totalLoadPeriod rows y m :=
      lt_of_lt_of_le hA0 (airlineLoad_le_total rows h y m a)
    have hx0 : 0 ≤ airlineLoadPeriod rows y m a / totalLoadPeriod rows y m * 100 := by
      positivity
    have hx1 : airlineLoadPeriod rows y m a / totalLoadPeriod rows y m * 100 ≤ 100 := by
      have : airlineLoadPeriod rows y m a / totalLoadPeriod rows y m ≤ 1 :=
        (div_le_one hT0).mpr (airlineLoad_le_total rows h y m a)
      nlinarith
    exact ⟨round2_nonneg _ hx0, round2_le_100 _ hx1⟩
  case isFalse hc =>
    norm_num

theorem airlineLoads_sum (rows : List Row) (y m : Int) :
    ((periodAirlines rows y m).map (fun a => airlineLoadPeriod rows y m a)).sum
      = totalLoadPeriod rows y m := by
  have hcongr : (periodAirlines rows y m).map (fun a => airlineLoadPeriod rows y m a)
      = (periodAirlines rows y m).map (fun a =>
          ((((groupedKeys rows).filter (fun k => k.year = y ∧ k.month = m)).filter
            (fun k => k.airline = a)).map (Passenger rows)).sum) := by
    apply List.map_congr_left
    intro a _
    exact airlineLoad_eq_filter rows y m a
  rw [hcongr, periodAirlines, totalLoadPeriod]
  exact sum_groups GKey.airline (Passenger rows)
    ((groupedKeys rows).filter (fun k => k.year = y ∧ k.month = m))

/-- C4: with non-negative metrics every output row's OwnShfli lies in
[0, 100], and in every period with a strictly positive grand total the
OwnShfli values of the distinct airlines of that period sum to 100 up to
the accumulated rounding error, at most one half-cent per airline. -/
theorem ownshfli_range_and_period_sum (rows : List Row)
    (h : ∀ r ∈ rows, 0 ≤ r.metric) :
    (∀ o ∈ finalRows rows, 0 ≤ o.ownShfli ∧ o.ownShfli ≤ 100) ∧
    (∀ y m : Int, 0 < totalLoadPeriod rows y m →
      |((periodAirlines rows y m).map (fun a => OwnShfli rows y m a)).sum - 100|
        ≤ ((periodAirlines rows y m).length : ℚ) * (1 / 200)) := by
  constructor
  · intro o ho
    obtain ⟨k, _, rfl⟩ := List.mem_map.mp ho
    simp only [mkRow]
    exact ownShfli_bounds rows h k.year k.month k.airline
  · intro y m hT
    have hTne : totalLoadPeriod rows y m ≠ 0 := ne_of_gt hT
    have hrw : ∀ a ∈ periodAirlines rows y m, OwnShfli rows y m a
        = round2 (airlineLoadPeriod rows y m a / totalLoadPeriod rows y m * 100) := by
      intro a _
      by_cases hA : airlineLoadPeriod rows y m a = 0
      · simp [OwnShfli, hA, round2_zero]
      · rw [OwnShfli, if_pos ⟨hTne, hA⟩]
    rw [List.map_congr_left hrw]
    have hshare : ((periodAirlines rows y m).map
        (fun a => airlineLoadPeriod rows y m a / totalLoadPeriod rows y m * 100)).sum
          = 100 := by
      have hfact : ∀ l : List String,
          (l.map (fun a => airlineLoadPeriod rows y m a / totalLoadPeriod rows y m * 100)).sum
            = (l.map (fun a => airlineLoadPeriod rows y m a)).sum
                / totalLoadPeriod rows y m * 100 := by
        intro l
        induction l with
        | nil => simp
        | cons x xs ih =>
          simp only [List.map_cons, List.sum_cons, ih]
          ring
      rw [hfact, airlineLoads_sum, div_self hTne, one_mul]
    have hstep : ((periodAirlines rows y m).map
        (fun a => round2 (airlineLoadPeriod rows y m a / totalLoadPeriod rows y m * 100))).sum
          - 100
        = ((periodAirlines rows y m).map
            (fun a => round2 (airlineLoadPeriod rows y m a / totalLoadPeriod rows y m * 100)
              - airlineLoadPeriod rows y m a / totalLoadPeriod rows y m * 100)).sum := by
      rw [sum_map_sub]
      rw [hshare]
    rw [hstep]
    calc |((periodAirlines rows y m).map
            (fun a => round2 (airlineLoadPeriod rows y m a / totalLoadPeriod rows y m * 100)
              - airlineLoadPeriod rows y m a / totalLoadPeriod rows y m * 100)).sum|
        ≤ (((periodAirlines rows y m).map
            (fun a => round2 (airlineLoadPeriod rows y m a / totalLoadPeriod rows y m * 100)
              - airlineLoadPeriod rows y m a / totalLoadPeriod rows y m * 100)).map
                (fun x => |x|)).sum := abs_sum_le _
      _ ≤ (((periodAirlines rows y m).map
            (fun a => round2 (airlineLoadPeriod rows y m a / totalLoadPeriod rows y m * 100)
              - airlineLoadPeriod rows y m a / totalLoadPeriod rows y m * 100)).map
                (fun x => |x|)).length * (1 / 200) := by
          apply sum_le_length_mul
          intro x hx
          obtain ⟨z, hz, rfl⟩ := List.mem_map.mp hx
          obtain ⟨a, _, rfl⟩ := List.mem_map.mp hz
          exact abs_round2_sub _
      _ = ((periodAirlines rows y m).length : ℚ) * (1 / 200) := by
          rw [List.length_map, List.length_map]

/-- Witness for C4 at the scenario input in period 2024-07. -/
theorem ownshfli_range_and_period_sum_witness :
    (∀ r ∈ scenarioRows, 0 ≤ r.metric) ∧
    0 < totalLoadPeriod scenarioRows 2024 7 ∧
    |((periodAirlines scenarioRows 2024 7).map
        (fun a => OwnShfli scenarioRows 2024 7 a)).sum - 100|
      ≤ ((periodAirlines scenarioRows 2024 7).length : ℚ) * (1 / 200) := by
  have hnn : ∀ r ∈ scenarioRows, 0 ≤ r.metric := by
    intro r hr
    simp only [scenarioRows, List.mem_cons, List.not_mem_nil, or_false] at hr
    rcases hr with rfl | rfl | rfl <;> norm_num
  have hT : 0 < totalLoadPeriod scenarioRows 2024 7 := by
    have : totalLoadPeriod scenarioRows 2024 7 = 150 := by
      simp [totalLoadPeriod, groupedKeys, scenarioRows, rowKey?, routeOf, Passenger]
      norm_num
    rw [this]
    norm_num
  exact ⟨hnn, hT, (ownshfli_range_and_period_sum scenarioRows hnn).2 2024 7 hT⟩

end CebuPac
